import Mathlib

/-!
Verification of the falcon FTP-tunnel core against its specification.

Bytes are modelled as naturals (values < 256 where the Go type system
guarantees `byte`), byte streams as `List Nat`, and fallible Go functions
as `Except`-valued Lean functions.  Each definition is a direct
transliteration of the corresponding Go function.
-/

namespace Falcon

/-! ## Frame codec (pkg/protocol/protocol.go) -/

/-- `maxPayload = 1 << 20` from protocol.go. -/
def maxPayload : Nat := 1 <<< 20

/-- `headerSize = 5` (1 byte type + 4 byte payload length). -/
def headerSize : Nat := 5

/-- `Message` is the frame type: a 1-byte type tag and a payload. -/
structure Message where
  type : Nat
  payload : List Nat
deriving Repr, DecidableEq

/-- Errors produced by the underlying reader (`io.ReadFull` semantics):
`eof` when zero bytes were available, `unexpectedEOF` when some but not
all requested bytes were available. -/
inductive IOErr where
  | eof
  | unexpectedEOF
deriving Repr, DecidableEq

/-- Errors surfaced by the codec: the two protocol sentinel errors plus
propagated reader errors. -/
inductive ProtoErr where
  | frameTooLarge
  | incompleteFrame
  | ioErr (e : IOErr)
deriving Repr, DecidableEq

instance {ε α : Type} [DecidableEq ε] [DecidableEq α] : DecidableEq (Except ε α) := fun x y =>
  match x, y with
  | .error e, .error f =>
    if h : e = f then isTrue (h ▸ rfl) else isFalse (fun hc => h (Except.error.inj hc))
  | .error _, .ok _ => isFalse (fun hc => Except.noConfusion hc)
  | .ok _, .error _ => isFalse (fun hc => Except.noConfusion hc)
  | .ok a, .ok b =>
    if h : a = b then isTrue (h ▸ rfl) else isFalse (fun hc => h (Except.ok.inj hc))

/-- Big-endian 32-bit encoding of `n % 2^32`, mirroring
`binary.Write(buf, binary.BigEndian, uint32(n))`. -/
def be32 (n : Nat) : List Nat :=
  [n / 16777216 % 256, n / 65536 % 256, n / 256 % 256, n % 256]

/-- Big-endian 32-bit decoding of the first four bytes, mirroring
`binary.BigEndian.Uint32(header[1:])`. -/
def fromBE32 (bs : List Nat) : Nat :=
  ((bs.getD 0 0 * 256 + bs.getD 1 0) * 256 + bs.getD 2 0) * 256 + bs.getD 3 0

/-- `Encode` from protocol.go: reject payloads over `maxPayload`, else
emit `[1 byte type][4 byte big-endian length][payload]`.  (The
`binary.Write` into a `bytes.Buffer` in the Go code cannot fail, so the
only error is `frameTooLarge`.) -/
def Encode (m : Message) : Except ProtoErr (List Nat) :=
  if m.payload.length > maxPayload then .error .frameTooLarge
  else .ok (m.type % 256 :: (be32 m.payload.length ++ m.payload))

/-- `io.ReadFull r buf` over a pure byte stream: succeed when `n` bytes
are available (consuming exactly `n`), return `eof` when the stream is
empty, `unexpectedEOF` when it holds some but fewer than `n` bytes. -/
def readFull (n : Nat) (s : List Nat) : Except IOErr (List Nat × List Nat) :=
  if n ≤ s.length then .ok (s.take n, s.drop n)
  else if s.length = 0 then .error .eof
  else .error .unexpectedEOF

/-- `Decode` from protocol.go: read a 5-byte header, check the declared
length against `maxPayload`, then (when the length is positive) read
exactly that many payload bytes.  `io.ErrUnexpectedEOF` is mapped to
`incompleteFrame`; other reader errors propagate unchanged.  Returns the
decoded message and the unconsumed remainder of the stream. -/
def Decode (s : List Nat) : Except ProtoErr (Message × List Nat) :=
  match readFull headerSize s with
  | .error .unexpectedEOF => .error .incompleteFrame
  | .error e => .error (.ioErr e)
  | .ok (header, rest) =>
    let msgType := header.getD 0 0
    let length := fromBE32 (header.drop 1)
    if length > maxPayload then .error .frameTooLarge
    else if length > 0 then
      match readFull length rest with
      | .error .unexpectedEOF => .error .incompleteFrame
      | .error e => .error (.ioErr e)
      | .ok (payload, rest2) => .ok (⟨msgType, payload⟩, rest2)
    else .ok (⟨msgType, []⟩, rest)

/-- The length field declared in the header of a stream (the big-endian
word in bytes 1..4). -/
def declaredLen (s : List Nat) : Nat := fromBE32 ((s.take headerSize).drop 1)

/-! ## Authenticator (internal/auth/auth.go) -/

/-- `Authenticator.Authenticate` from auth.go: empty stored hash fails
closed, otherwise the stored bcrypt hash is compared with the plaintext.
`bcrypt.CompareHashAndPassword(hash, password) == nil` is an external
library call, abstracted as the predicate `bcryptMatch hash password`
("the plaintext corresponds to the stored hash"). -/
def Authenticate (passwordHash : String) (bcryptMatch : String → String → Bool)
    (password : String) : Bool :=
  if passwordHash = "" then false else bcryptMatch passwordHash password

/-! ## Handshake and token generation (internal/auth/handshake.go) -/

/-- Result of a `HandshakeServer` call, matching its return paths. -/
inductive HSResult where
  | ok
  | authFailed
  | invalidResponse
  | readError (e : ProtoErr)
  | encodeError (e : ProtoErr)
deriving Repr, DecidableEq

/-- ASCII bytes of the `"ok"` response. -/
def okResponse : List Nat := [111, 107]

/-- ASCII bytes of the `"invalid credentials"` rejection string. -/
def invalidCredResponse : List Nat :=
  [105, 110, 118, 97, 108, 105, 100, 32, 99, 114, 101, 100, 101, 110, 116, 105, 97, 108, 115]

/-- `HandshakeServer` from handshake.go, as a function of the inbound
byte stream and the authenticator verdict.  Returns the call result and
the list of frames written to the connection, in order.  (The
read/write deadline bookkeeping is a connection-level effect with no
bearing on which frames are sent or which result is returned.) -/
def HandshakeServer (input : List Nat) (authenticate : List Nat → Bool) :
    HSResult × List (List Nat) :=
  match Decode input with
  | .error e => (.readError e, [])
  | .ok (msg, _) =>
    if msg.type ≠ 0 then (.invalidResponse, [])
    else
      let response := if authenticate msg.payload then okResponse else invalidCredResponse
      match Encode ⟨1, response⟩ with
      | .error e => (.encodeError e, [])
      | .ok respFrame =>
        if response ≠ okResponse then (.authFailed, [respFrame])
        else (.ok, [respFrame])

/-- Errors of `GenerateToken`: the plain `"token length must be >0"`
error (which does not wrap `ErrTokenGeneration`) and the
`ErrTokenGeneration`-wrapping error for a failing randomness source. -/
inductive TokenErr where
  | lengthInvalid
  | tokenGeneration
deriving Repr, DecidableEq

/-- `encoding/hex`'s digit table `"0123456789abcdef"`. -/
def hextable : List Char := "0123456789abcdef".toList

/-- Hex encoding of one byte: high nibble then low nibble. -/
def hexEncodeByte (b : Nat) : List Char :=
  [hextable.getD (b / 16) '0', hextable.getD (b % 16) '0']

/-- `hex.EncodeToString` over a byte list. -/
def hexEncode : List Nat → List Char
  | [] => []
  | b :: tl => hexEncodeByte b ++ hexEncode tl

/-- `GenerateToken` from handshake.go: reject `n <= 0` with the plain
length error, run the injected randomness source over a zero-filled
`n`-byte buffer, wrap a source failure in `tokenGeneration`, and hex
encode the buffer.  The source writing into the buffer is modelled by
overlaying the bytes it produces on the zero buffer. -/
def GenerateToken (n : Int) (randSrc : Nat → Except Unit (List Nat)) :
    Except TokenErr (List Char) :=
  if n ≤ 0 then .error .lengthInvalid
  else
    match randSrc n.toNat with
    | .error _ => .error .tokenGeneration
    | .ok bs => .ok (hexEncode (bs.take n.toNat ++ List.replicate (n.toNat - bs.length) 0))

/-! ## Connection pool (conn_pool.go) -/

/-- Capacity computation in `newConnPool`: `if maxSize <= 0 { maxSize = 1 }`,
then `make(chan struct\x7b\x7d, maxSize)`. -/
def poolCap (maxSize : Int) : Nat := if maxSize ≤ 0 then 1 else maxSize.toNat

/-- `releaseToken`: non-blocking receive on the semaphore channel — it
removes one token when one is present and does nothing on an empty
channel (`select` with `default`), so it is total and never blocks. -/
def releaseToken (tokens : Nat) : Nat := tokens - 1

/-- `Release` from the pool: both the `keep` and the `!keep` branch call
`conn.Close()` (reuse not implemented), then a token is freed.  Returns
whether the connection was closed together with the new token count. -/
def Release (connPresent : Bool) (keep : Bool) (tokens : Nat) : Bool × Nat :=
  ((if connPresent then (if keep then true else true) else false), releaseToken tokens)

/-- Abstract pool history events: a successful semaphore send inside
`Acquire`, an `Acquire` whose upstream dial fails (slot taken, then
released at once), a `Release`, and `Close` (drain all tokens). -/
inductive PoolOp where
  | acquireSlot
  | acquireDialFail
  | release (keep : Bool)
  | close
deriving Repr, DecidableEq

/-- Token-count transition of one pool operation (occupancy of the `sem`
channel).  An `Acquire` facing a full channel blocks, so it changes
nothing until capacity frees up. -/
def poolStep (cap tokens : Nat) : PoolOp → Nat
  | .acquireSlot => if tokens < cap then tokens + 1 else tokens
  | .acquireDialFail => if tokens < cap then releaseToken (tokens + 1) else tokens
  | .release _ => releaseToken tokens
  | .close => 0

/-- Token count after a sequence of pool operations on a fresh pool. -/
def poolRun (cap : Nat) (ops : List PoolOp) : Nat := ops.foldl (poolStep cap) 0

/-! ## Proxy engine (proxy.go: proxyWithIdle) -/

/-- Error observed by one directional copy; `closed` stands for
`net.ErrClosed`. -/
inductive CopyErr where
  | closed
  | deadlineExceeded
  | other (code : Nat)
deriving Repr, DecidableEq

/-- One observable event of `proxyWithIdle`, in the program order of the
collecting goroutine: a directional copy finishing with its result, the
`stop` channel closing (ending deadline refresh), and each connection
being closed. -/
inductive ProxyEvent where
  | copyDone (firstConn : Bool) (err : Option CopyErr)
  | stopRefresh
  | closeConn (firstConn : Bool)
deriving Repr, DecidableEq

/-- One iteration of the error-collection loop:
`if err != nil && firstErr == nil && !errors.Is(err, net.ErrClosed) { firstErr = err }`. -/
def selectErr (firstErr err : Option CopyErr) : Option CopyErr :=
  match firstErr, err with
  | none, some e => if e = .closed then none else some e
  | acc, _ => acc

/-- `proxyWithIdle`, in the program order of its collecting goroutine:
it receives the two copy results from `errs` in arrival order (`d1`'s
copy finished first with `r1`, then `d2`'s with `r2`), and only after
receiving both does it close `stop` and the two connections; the
returned error is the fold of the collection loop over the two results. -/
def proxyWithIdle (d1 : Bool) (r1 : Option CopyErr) (d2 : Bool) (r2 : Option CopyErr) :
    List ProxyEvent × Option CopyErr :=
  ([.copyDone d1 r1, .copyDone d2 r2, .stopRefresh, .closeConn true, .closeConn false],
   selectErr (selectErr none r1) r2)

/-! ## Cancellation plumbing (server.go handleConn and connPool.Acquire) -/

/-- Cancellation sources a Go context can observe. -/
inductive CancelSource where
  | serveCancel
  | acquireTimeout (ms : Nat)
deriving Repr, DecidableEq

/-- `context.Background()` observes no cancellation source. -/
def backgroundSources : List CancelSource := []

/-- A derived context observes its parent's sources plus its own. -/
def deriveWith (parent : List CancelSource) (src : CancelSource) : List CancelSource :=
  src :: parent

/-- The cancellable context passed to `Serve` and threaded into
`handleConn`. -/
def serveCtxSources : List CancelSource := deriveWith backgroundSources .serveCancel

/-- The context handed to `pool.Acquire` by `handleConn`:
`context.WithTimeout(context.Background(), s.cfg.Server.Timeout)` —
derived from `Background`, not from the `ctx` argument of `handleConn`. -/
def acquireCtxSources (timeoutMs : Nat) : List CancelSource :=
  deriveWith backgroundSources (.acquireTimeout timeoutMs)

/-- `connPool.Acquire` blocks in
`select \x7b case p.sem <- ...: ; case <-ctx.Done(): return nil, ctx.Err() \x7d`;
a firing cancellation source unblocks the wait exactly when the context
it was given observes that source. -/
def acquireUnblockedBy (ctxSources : List CancelSource) (fired : CancelSource) : Bool :=
  decide (fired ∈ ctxSources)

/-! ## Tunnel client (internal/tunnel/client.go) -/

/-- The client state relevant to `Start`: the `running` flag.  It is set
(under `c.mu`) by `Start` and never written anywhere else in the
client — no code path resets it to false. -/
structure ClientState where
  running : Bool
deriving Repr, DecidableEq

/-- Outcome of the guard section of `Start`. -/
inductive StartResult where
  | ok
  | alreadyRunning
deriving Repr, DecidableEq

/-- The mutex-guarded prologue of `Client.Start`: fail with
`"client already running"` when `running` is set, else set it. -/
def startStep (s : ClientState) : ClientState × StartResult :=
  if s.running then (s, .alreadyRunning) else (⟨true⟩, .ok)

/-- The client state after `n` further `Start` calls (the mutex
serializes the guard sections, so any interleaving of `Start` calls is
some sequence of `startStep`s). -/
def startN : Nat → ClientState → ClientState
  | 0, s => s
  | n + 1, s => startN n (startStep s).1

/-! ### Codec lemmas -/

theorem fromBE32_be32 (n : Nat) (h : n < 4294967296) : fromBE32 (be32 n) = n := by
  simp [fromBE32, be32]
  omega

theorem readFull_of_le {n : Nat} {s : List Nat} (h : n ≤ s.length) :
    readFull n s = .ok (s.take n, s.drop n) := by
  simp [readFull, h]

theorem readFull_cons5 (t b1 b2 b3 b4 : Nat) (rest : List Nat) :
    readFull 5 (t :: b1 :: b2 :: b3 :: b4 :: rest) = .ok ([t, b1, b2, b3, b4], rest) := by
  have h : 5 ≤ (t :: b1 :: b2 :: b3 :: b4 :: rest).length := by simp
  rw [readFull_of_le h]
  rfl

theorem readFull_exact {s extra : List Nat} :
    readFull s.length (s ++ extra) = .ok (s, extra) := by
  have h : s.length ≤ (s ++ extra).length := by simp
  rw [readFull_of_le h, List.take_left, List.drop_left]

/-- Decoding a well-formed frame (with arbitrary trailing stream content)
recovers the message and leaves exactly the trailing content. -/
theorem Decode_frame (t : Nat) (payload extra : List Nat)
    (hlen : payload.length ≤ maxPayload) :
    Decode ((t :: (be32 payload.length ++ payload)) ++ extra) = .ok (⟨t, payload⟩, extra) := by
  have h32 : payload.length < 4294967296 := lt_of_le_of_lt hlen (by decide)
  have hshape : (t :: (be32 payload.length ++ payload)) ++ extra =
      t :: payload.length / 16777216 % 256 :: payload.length / 65536 % 256 ::
        payload.length / 256 % 256 :: payload.length % 256 :: (payload ++ extra) := by
    simp [be32]
  rw [hshape]
  unfold Decode
  rw [show headerSize = 5 from rfl, readFull_cons5]
  simp only
  have hlen32 : fromBE32 ([t, payload.length / 16777216 % 256, payload.length / 65536 % 256,
      payload.length / 256 % 256, payload.length % 256].drop 1) = payload.length := by
    show fromBE32 (be32 payload.length) = payload.length
    exact fromBE32_be32 _ h32
  rw [hlen32]
  have hnotbig : ¬ payload.length > maxPayload := not_lt.mpr hlen
  rw [if_neg hnotbig]
  by_cases hpos : payload.length > 0
  · rw [if_pos hpos, readFull_exact]
    simp [List.getD]
  · rw [if_neg hpos]
    have hnil : payload = [] := List.length_eq_zero.mp (by omega)
    subst hnil
    simp

theorem declaredLen_cons5 (t b1 b2 b3 b4 : Nat) (rest : List Nat) :
    declaredLen (t :: b1 :: b2 :: b3 :: b4 :: rest) = fromBE32 [b1, b2, b3, b4] := rfl

/-- Full case analysis of `Decode` on a stream holding at least the
5-byte header. -/
theorem Decode_cons5 (t b1 b2 b3 b4 : Nat) (rest : List Nat) :
    Decode (t :: b1 :: b2 :: b3 :: b4 :: rest) =
      if fromBE32 [b1, b2, b3, b4] > maxPayload then .error .frameTooLarge
      else if fromBE32 [b1, b2, b3, b4] ≤ rest.length then
        .ok (⟨t, rest.take (fromBE32 [b1, b2, b3, b4])⟩, rest.drop (fromBE32 [b1, b2, b3, b4]))
      else if rest.length = 0 then .error (.ioErr .eof)
      else .error .incompleteFrame := by
  unfold Decode
  rw [show headerSize = 5 from rfl, readFull_cons5]
  simp only
  by_cases hbig : fromBE32 ([t, b1, b2, b3, b4].drop 1) > maxPayload
  · rw [if_pos hbig, if_pos (show fromBE32 [b1, b2, b3, b4] > maxPayload from hbig)]
  · rw [if_neg hbig, if_neg (show ¬ fromBE32 [b1, b2, b3, b4] > maxPayload from hbig)]
    by_cases hpos : fromBE32 ([t, b1, b2, b3, b4].drop 1) > 0
    · rw [if_pos hpos]
      unfold readFull
      by_cases hle : fromBE32 ([t, b1, b2, b3, b4].drop 1) ≤ rest.length
      · rw [if_pos hle, if_pos (show fromBE32 [b1, b2, b3, b4] ≤ rest.length from hle)]
        simp [List.getD]
      · rw [if_neg hle, if_neg (show ¬ fromBE32 [b1, b2, b3, b4] ≤ rest.length from hle)]
        by_cases hnil : rest.length = 0
        · rw [if_pos hnil, if_pos hnil]
        · rw [if_neg hnil, if_neg hnil]
    · rw [if_neg hpos]
      have hpos2 : ¬ fromBE32 [b1, b2, b3, b4] > 0 := hpos
      have h0 : fromBE32 [b1, b2, b3, b4] = 0 := by omega
      rw [if_pos (show fromBE32 [b1, b2, b3, b4] ≤ rest.length by omega)]
      simp [List.getD, h0]

/-! ### Claims C1 - C3 -/

/-- C1: for every message whose type tag fits a byte and whose payload is
at most 1 MiB, decoding the encoding yields the original message (same
type tag and payload) with the stream fully consumed. -/
theorem decode_encode_roundtrip (m : Message) (htype : m.type < 256)
    (hlen : m.payload.length ≤ maxPayload) :
    ∃ frame, Encode m = .ok frame ∧ Decode frame = .ok (m, []) := by
  refine ⟨m.type % 256 :: (be32 m.payload.length ++ m.payload), ?_, ?_⟩
  · simp [Encode, not_lt.mpr hlen]
  · have h := Decode_frame (m.type % 256) m.payload [] hlen
    rw [List.append_nil] at h
    rw [h, Nat.mod_eq_of_lt htype]

theorem decode_encode_roundtrip_witness :
    ∃ frame, Encode ⟨2, [104, 105]⟩ = .ok frame ∧
      Decode frame = .ok (⟨2, [104, 105]⟩, []) :=
  decode_encode_roundtrip ⟨2, [104, 105]⟩ (by decide) (by decide)

/-- C2: `Encode` fails with `frameTooLarge` exactly when the payload
exceeds `maxPayload` bytes (so exactly `maxPayload` succeeds and it
never fails for smaller payloads), and `Decode` fails with
`frameTooLarge` whenever the declared length field exceeds `maxPayload`,
right after the 5-byte header and regardless of how many payload bytes
follow (in particular with none). -/
theorem encode_size_bound_decode_length_check :
    (∀ m, (Encode m = .error .frameTooLarge ↔ m.payload.length > maxPayload)) ∧
    (∀ m, m.payload.length ≤ maxPayload →
      Encode m = .ok (m.type % 256 :: (be32 m.payload.length ++ m.payload))) ∧
    (∀ t b1 b2 b3 b4 rest, fromBE32 [b1, b2, b3, b4] > maxPayload →
      Decode (t :: b1 :: b2 :: b3 :: b4 :: rest) = .error .frameTooLarge) := by
  refine ⟨fun m => ?_, fun m h => ?_, fun t b1 b2 b3 b4 rest h => ?_⟩
  · by_cases h : m.payload.length > maxPayload <;> simp [Encode, h]
  · simp [Encode, not_lt.mpr h]
  · rw [Decode_cons5, if_pos h]

theorem encode_size_bound_decode_length_check_witness :
    Encode ⟨2, List.replicate 1048577 0⟩ = .error .frameTooLarge ∧
    Encode ⟨2, List.replicate 1048576 0⟩ =
      .ok (2 % 256 :: (be32 (List.replicate (1048576 : Nat) (0 : Nat)).length ++
        List.replicate 1048576 0)) ∧
    Decode [2, 16, 0, 0, 1] = .error .frameTooLarge := by
  refine ⟨?_, ?_, ?_⟩
  · exact (encode_size_bound_decode_length_check.1 _).mpr
      (by rw [List.length_replicate]; decide)
  · exact encode_size_bound_decode_length_check.2.1 _
      (by rw [List.length_replicate]; decide)
  · exact encode_size_bound_decode_length_check.2.2 2 16 0 0 1 [] (by decide)

/-- C3 counterexample: when the stream ends with zero bytes available at
the start of a read (empty stream, or stream ending exactly after the
header of a frame declaring a positive length), `Decode` returns the
reader's raw `eof` error, not `incompleteFrame`, contradicting the claim
that every stream ending before the header or payload is fully read
fails with `incompleteFrame`. -/
theorem decode_truncation_counterexample :
    Decode [0, 0, 0, 0, 3] = .error (.ioErr .eof) ∧
    Decode [] = .error (.ioErr .eof) ∧
    ProtoErr.ioErr .eof ≠ ProtoErr.incompleteFrame := by decide

/-- C3 amended: `Decode` never reads past the frame (on success the
consumed prefix is exactly the 5-byte header plus the declared payload,
whose length equals the declared length field — never a short message),
and it fails with `incompleteFrame` exactly when the stream ends with at
least one but fewer than 5 header bytes, or with at least one but fewer
than the declared number of payload bytes; a stream ending with zero
bytes at a read boundary yields the reader's `eof` error instead. -/
theorem decode_exact_consumption_and_truncation :
    (∀ s m rest, Decode s = .ok (m, rest) →
      m.payload.length = declaredLen s ∧
      ∃ consumed, s = consumed ++ rest ∧
        consumed.length = headerSize + m.payload.length) ∧
    (∀ s, Decode s = .error .incompleteFrame ↔
      (0 < s.length ∧ s.length < headerSize) ∨
      (headerSize < s.length ∧ s.length < headerSize + declaredLen s ∧
        declaredLen s ≤ maxPayload)) := by
  constructor
  · intro s m rest h
    match s with
    | [] => exact nomatch h
    | [a] => exact nomatch h
    | [a, b] => exact nomatch h
    | [a, b, c] => exact nomatch h
    | [a, b, c, d] => exact nomatch h
    | t :: b1 :: b2 :: b3 :: b4 :: rest' =>
      by_cases h1 : fromBE32 [b1, b2, b3, b4] > maxPayload
      · rw [Decode_cons5, if_pos h1] at h
        exact nomatch h
      by_cases h2 : fromBE32 [b1, b2, b3, b4] ≤ rest'.length
      · rw [Decode_cons5, if_neg h1, if_pos h2] at h
        rw [Except.ok.injEq, Prod.mk.injEq] at h
        obtain ⟨hm, hrest⟩ := h
        subst hm
        subst hrest
        refine ⟨?_, t :: b1 :: b2 :: b3 :: b4 :: rest'.take (fromBE32 [b1, b2, b3, b4]), ?_, ?_⟩
        · rw [declaredLen_cons5]
          simp [List.length_take, Nat.min_eq_left h2]
        · simp [List.take_append_drop]
        · simp [headerSize]
          omega
      by_cases h3 : rest'.length = 0
      · rw [Decode_cons5, if_neg h1, if_neg h2, if_pos h3] at h
        exact nomatch h
      · rw [Decode_cons5, if_neg h1, if_neg h2, if_neg h3] at h
        exact nomatch h
  · intro s
    match s with
    | [] => simp [Decode, readFull, headerSize]
    | [a] => simp [Decode, readFull, headerSize]
    | [a, b] => simp [Decode, readFull, headerSize]
    | [a, b, c] => simp [Decode, readFull, headerSize]
    | [a, b, c, d] => simp [Decode, readFull, headerSize]
    | t :: b1 :: b2 :: b3 :: b4 :: rest' =>
      rw [declaredLen_cons5]
      by_cases h1 : fromBE32 [b1, b2, b3, b4] > maxPayload
      · rw [Decode_cons5, if_pos h1]
        exact iff_of_false (by simp)
          (by simp only [List.length_cons, headerSize]; omega)
      by_cases h2 : fromBE32 [b1, b2, b3, b4] ≤ rest'.length
      · rw [Decode_cons5, if_neg h1, if_pos h2]
        exact iff_of_false (by simp)
          (by simp only [List.length_cons, headerSize]; omega)
      by_cases h3 : rest'.length = 0
      · rw [Decode_cons5, if_neg h1, if_neg h2, if_pos h3]
        exact iff_of_false (by simp)
          (by simp only [List.length_cons, headerSize]; omega)
      · rw [Decode_cons5, if_neg h1, if_neg h2, if_neg h3]
        exact iff_of_true rfl
          (by simp only [List.length_cons, headerSize]; omega)

theorem decode_exact_consumption_witness :
    Decode [2, 0, 0, 0, 5, 104, 105] = .error .incompleteFrame ∧
    ((⟨2, [9]⟩ : Message).payload.length = declaredLen [2, 0, 0, 0, 1, 9, 7] ∧
      ∃ consumed, [2, 0, 0, 0, 1, 9, 7] = consumed ++ [7] ∧
        consumed.length = headerSize + (⟨2, [9]⟩ : Message).payload.length) := by
  refine ⟨(decode_exact_consumption_and_truncation.2 _).mpr ?_, ?_⟩
  · decide
  · exact decode_exact_consumption_and_truncation.1 [2, 0, 0, 0, 1, 9, 7] ⟨2, [9]⟩ [7] (by decide)

/-! ### Claim C8 — authenticator -/

/-- C8: with no configured hash, `Authenticate` returns false for every
password (fail-closed); with a configured hash it returns true exactly
when the bcrypt comparison of the stored hash against the plaintext
succeeds. -/
theorem authenticate_fail_closed_and_iff (bcryptMatch : String → String → Bool) :
    (∀ password, Authenticate "" bcryptMatch password = false) ∧
    (∀ hash password, hash ≠ "" →
      (Authenticate hash bcryptMatch password = true ↔ bcryptMatch hash password = true)) := by
  refine ⟨fun password => by simp [Authenticate], fun hash password h => ?_⟩
  simp [Authenticate, h]

theorem authenticate_fail_closed_witness :
    Authenticate "" (fun _ _ => true) "secret" = false ∧
    (Authenticate "h" (fun _ _ => true) "secret" = true ↔
      (fun (_ _ : String) => true) "h" "secret" = true) :=
  ⟨(authenticate_fail_closed_and_iff _).1 "secret",
   (authenticate_fail_closed_and_iff _).2 "h" "secret" (by decide)⟩

/-! ### Claim C9 — token generation -/

/-- C9 counterexample: `GenerateToken` on a non-positive length returns
the plain `"token length must be >0"` error, which does not wrap
`ErrTokenGeneration` — contradicting the claim that the length check
fails with the TokenGeneration error. -/
theorem generateToken_length_error_counterexample :
    GenerateToken 0 (fun k => .ok (List.replicate k 7)) = .error .lengthInvalid ∧
    TokenErr.lengthInvalid ≠ TokenErr.tokenGeneration := by decide

theorem hexEncode_length (bs : List Nat) : (hexEncode bs).length = 2 * bs.length := by
  induction bs with
  | nil => rfl
  | cons b tl ih =>
    simp [hexEncode, hexEncodeByte, ih]
    omega

/-- C9 amended: `GenerateToken` fails with the plain length error when
`n ≤ 0`, fails with the TokenGeneration error when the randomness source
errors, and otherwise deterministically returns the hex encoding of the
`n` bytes produced by the source — a character string of length `2n`. -/
theorem generateToken_errors_and_hex (n : Int) (randSrc : Nat → Except Unit (List Nat)) :
    (n ≤ 0 → GenerateToken n randSrc = .error .lengthInvalid) ∧
    (0 < n → ∀ e, randSrc n.toNat = .error e →
      GenerateToken n randSrc = .error .tokenGeneration) ∧
    (0 < n → ∀ bs, randSrc n.toNat = .ok bs → bs.length = n.toNat →
      GenerateToken n randSrc = .ok (hexEncode bs) ∧
      (hexEncode bs).length = 2 * n.toNat) := by
  refine ⟨fun h => by simp [GenerateToken, h], fun hpos e herr => ?_, fun hpos bs hok hlen => ?_⟩
  · rw [GenerateToken, if_neg (by omega), herr]
  · have hn : ¬ n ≤ 0 := by omega
    have htake : bs.take n.toNat = bs := by
      rw [← hlen]
      exact List.take_length bs
    have hrep : n.toNat - bs.length = 0 := by omega
    refine ⟨by simp [GenerateToken, hn, hok, htake, hrep], ?_⟩
    rw [hexEncode_length, hlen]

theorem generateToken_hex_witness :
    GenerateToken 4 (fun _ => .ok [1, 2, 3, 4]) = .ok (hexEncode [1, 2, 3, 4]) ∧
    (hexEncode [1, 2, 3, 4]).length = 2 * (4 : Int).toNat :=
  (generateToken_errors_and_hex 4 (fun _ => .ok [1, 2, 3, 4])).2.2 (by decide)
    [1, 2, 3, 4] rfl (by decide)

/-! ### Claim C4 — server handshake -/

/-- C4: when the received frame is not an Auth frame, `HandshakeServer`
fails with InvalidResponse and writes nothing; when it is Auth, exactly
one AuthResponse frame is written, with payload `"ok"` on acceptance
(and the call succeeds) or the `"invalid credentials"` rejection string
on refusal — and in the rejection case the call still returns AuthFailed
even though the rejection frame was written. -/
theorem handshakeServer_behavior (input : List Nat) (authenticate : List Nat → Bool)
    (msg : Message) (rest : List Nat) (hdec : Decode input = .ok (msg, rest)) :
    (msg.type ≠ 0 → HandshakeServer input authenticate = (.invalidResponse, [])) ∧
    (msg.type = 0 → authenticate msg.payload = true →
      ∃ frame, Encode ⟨1, okResponse⟩ = .ok frame ∧
        HandshakeServer input authenticate = (.ok, [frame])) ∧
    (msg.type = 0 → authenticate msg.payload = false →
      ∃ frame, Encode ⟨1, invalidCredResponse⟩ = .ok frame ∧
        HandshakeServer input authenticate = (.authFailed, [frame])) := by
  refine ⟨fun htype => ?_, fun htype hauth => ?_, fun htype hauth => ?_⟩
  · rw [HandshakeServer, hdec]
    simp [htype]
  · refine ⟨1 % 256 :: (be32 okResponse.length ++ okResponse), by simp [Encode]; decide, ?_⟩
    rw [HandshakeServer, hdec]
    simp only [htype, hauth]
    decide
  · refine ⟨1 % 256 :: (be32 invalidCredResponse.length ++ invalidCredResponse),
      by simp [Encode]; decide, ?_⟩
    rw [HandshakeServer, hdec]
    simp only [htype, hauth]
    decide

theorem handshakeServer_behavior_witness :
    ∃ frame, Encode ⟨1, invalidCredResponse⟩ = .ok frame ∧
      HandshakeServer [0, 0, 0, 0, 1, 120] (fun _ => false) = (.authFailed, [frame]) :=
  (handshakeServer_behavior [0, 0, 0, 0, 1, 120] (fun _ => false) ⟨0, [120]⟩ []
    (by decide)).2.2 rfl rfl

/-! ### Claim C6 — pool release and capacity bound -/

theorem poolStep_le {cap tokens : Nat} (h : tokens ≤ cap) (op : PoolOp) :
    poolStep cap tokens op ≤ cap := by
  cases op with
  | acquireSlot =>
    simp only [poolStep]
    split_ifs <;> omega
  | acquireDialFail =>
    simp only [poolStep, releaseToken]
    split_ifs <;> omega
  | release keep => simp only [poolStep, releaseToken]; omega
  | close => simp only [poolStep]; omega

theorem foldl_poolStep_le (cap : Nat) (ops : List PoolOp) :
    ∀ tokens, tokens ≤ cap → ops.foldl (poolStep cap) tokens ≤ cap := by
  induction ops with
  | nil => intro t ht; exact ht
  | cons op tl ih => intro t ht; exact ih _ (poolStep_le ht op)

/-- C6: `Release` closes the passed connection regardless of the `keep`
flag and frees one semaphore token; `releaseToken` is total and a no-op
on an empty semaphore, so releasing more often than acquiring neither
blocks nor fails; a configured capacity ≤ 0 is clamped to 1, and the
outstanding token count after any operation sequence never exceeds
max(configured size, 1). -/
theorem pool_release_closes_and_bound (maxSize : Int) :
    (∀ keep tokens, (Release true keep tokens).1 = true) ∧
    (∀ keep tokens, (Release true keep tokens).2 = releaseToken tokens) ∧
    releaseToken 0 = 0 ∧
    poolCap maxSize = (max maxSize 1).toNat ∧
    (∀ ops, poolRun (poolCap maxSize) ops ≤ (max maxSize 1).toNat) := by
  have hcap : poolCap maxSize = (max maxSize 1).toNat := by
    rw [poolCap]
    split_ifs with h <;> omega
  refine ⟨fun keep tokens => by cases keep <;> rfl, fun keep tokens => rfl, rfl, hcap, fun ops => ?_⟩
  rw [← hcap]
  exact foldl_poolStep_le _ ops 0 (Nat.zero_le _)

/-! ### Claim C5 — proxy termination order and error selection -/

/-- C5 counterexample: in the event order of `proxyWithIdle`, the first
two events are the completions of the two copy directions; no
connection-close event precedes the second completion, so ending one
direction does not close the connections and cannot be what unblocks the
other direction. -/
theorem proxy_close_after_both_counterexample :
    (proxyWithIdle true none false none).1.take 2 =
      [.copyDone true none, .copyDone false none] ∧
    ∀ ev ∈ (proxyWithIdle true none false none).1.take 2, ∀ d, ev ≠ .closeConn d := by
  refine ⟨rfl, ?_⟩
  decide

/-- C5 amended: `proxyWithIdle` closes the stop channel and both
connections only after BOTH directional copies have ended — the closes
follow the second completion, so the proxy itself does not unblock a
still-running direction — and it returns the first non-nil error in
arrival order that is not net.ErrClosed, or none when both directions
ended with nil or ErrClosed results. -/
theorem proxy_close_and_error_selection (d1 d2 : Bool) (r1 r2 : Option CopyErr) :
    (proxyWithIdle d1 r1 d2 r2).1 =
      [.copyDone d1 r1, .copyDone d2 r2, .stopRefresh, .closeConn true, .closeConn false] ∧
    ((proxyWithIdle d1 r1 d2 r2).2 = none ↔
      (r1 = none ∨ r1 = some .closed) ∧ (r2 = none ∨ r2 = some .closed)) ∧
    (∀ e, r1 = some e → e ≠ .closed → (proxyWithIdle d1 r1 d2 r2).2 = some e) ∧
    (∀ e, (r1 = none ∨ r1 = some .closed) → r2 = some e → e ≠ .closed →
      (proxyWithIdle d1 r1 d2 r2).2 = some e) := by
  refine ⟨rfl, ?_, ?_, ?_⟩
  · cases r1 with
    | none =>
      cases r2 with
      | none => simp [proxyWithIdle, selectErr]
      | some e =>
        simp only [proxyWithIdle, selectErr]
        split_ifs with h <;> simp [h]
    | some e =>
      simp only [proxyWithIdle, selectErr]
      split_ifs with h
      · cases r2 with
        | none => simp [selectErr, h]
        | some f =>
          simp only [selectErr]
          split_ifs with h2 <;> simp [h, h2]
      · simp [selectErr, h]
  · intro e he hne
    subst he
    simp only [proxyWithIdle, selectErr, if_neg hne]
  · intro e h1 he hne
    subst he
    rcases h1 with h1 | h1 <;> subst h1 <;>
      simp [proxyWithIdle, selectErr, if_neg hne]

theorem proxy_error_selection_witness :
    (proxyWithIdle true (some (.other 7)) false none).2 = some (.other 7) :=
  (proxy_close_and_error_selection true false (some (.other 7)) none).2.2.1
    (.other 7) rfl (by decide)

/-! ### Claim C7 — cancellation propagation to Acquire -/

/-- C7: `handleConn` derives the context handed to `pool.Acquire` from
`context.Background()` with only the server timeout attached, so the
cancellation source of the context passed to `Serve` is not among the
sources the Acquire wait observes: cancelling `Serve`'s context does not
unblock a blocked `Acquire` (only the acquire timeout does), contrary to
the claim. -/
theorem serve_cancel_not_propagated_to_acquire (timeoutMs : Nat) :
    acquireUnblockedBy (acquireCtxSources timeoutMs) .serveCancel = false ∧
    CancelSource.serveCancel ∈ serveCtxSources ∧
    acquireUnblockedBy (acquireCtxSources timeoutMs) (.acquireTimeout timeoutMs) = true := by
  refine ⟨?_, by simp [serveCtxSources, deriveWith, backgroundSources], ?_⟩
  · simp [acquireUnblockedBy, acquireCtxSources, deriveWith, backgroundSources]
  · simp [acquireUnblockedBy, acquireCtxSources, deriveWith, backgroundSources]

/-! ### Claim C10 — client is one-shot -/

/-- C10: `running` is never reset — `startStep` is the only writer and
it only sets the flag — so once any `Start` call has begun, the flag
stays true and every later `Start` call (any number of calls later)
fails with the "already running" error without touching the state. -/
theorem client_start_one_shot :
    (∀ s, s.running = true → (startStep s).1.running = true) ∧
    (∀ s, ((startStep s).1).running = true) ∧
    (∀ n, (startStep (startN n ⟨true⟩)).2 = .alreadyRunning) ∧
    (∀ s, s.running = true → startStep s = (s, .alreadyRunning)) := by
  have hfix : ∀ n, startN n ⟨true⟩ = ⟨true⟩ := by
    intro n
    induction n with
    | zero => rfl
    | succ k ih => simpa [startN, startStep] using ih
  refine ⟨fun s h => ?_, fun s => ?_, fun n => ?_, fun s h => ?_⟩
  · simp [startStep, h]
  · by_cases h : s.running <;> simp [startStep, h]
  · rw [hfix n]
    rfl
  · simp [startStep, h]

theorem client_start_one_shot_witness :
    (startStep ⟨true⟩).1.running = true ∧
    (startStep (startN 2 ⟨true⟩)).2 = .alreadyRunning ∧
    startStep ⟨true⟩ = (⟨true⟩, .alreadyRunning) :=
  ⟨client_start_one_shot.1 ⟨true⟩ rfl,
   client_start_one_shot.2.2.1 2,
   client_start_one_shot.2.2.2 ⟨true⟩ rfl⟩

end Falcon
